import Mathlib

/-!
# Verification of the 3D-maze collision-constrained motion system

Shallow embedding of the motion/collision core of `src/components/ThreeMaze.js`
(a three.js first-person maze demo), together with proofs checking the
natural-language specification against it.

The embedding covers:
* the AABB data (`Vec3`, `Box3`) and the three.js `Box3.intersectsBox` test;
* the player bounding box and `checkWallCollisions` (lines 378-399);
* the accept/reject position update of the animation loop (lines 438-444),
  packaged here as `resolve`;
* the six wall AABBs built in `createMaze` (lines 262-283);
* the motion integrator of the animation loop (lines 407-436), including the
  camera-quaternion rotation of the forward and right vectors;
* the mouse-look handler `onMouseMove` (lines 182-209) with its pitch clamp.

Numeric values are modelled exactly (over a linear ordered field, instantiated
at `ℚ` for executable checks and at `ℝ` where trigonometry is needed); IEEE
rounding is out of scope of this development.
-/

open Real

variable {α : Type} [LinearOrderedField α]

/-- A 3-component vector, as `THREE.Vector3` (components in an arbitrary
linear ordered field so that concrete checks can run over `ℚ`). -/
structure Vec3 (α : Type) where
  x : α
  y : α
  z : α
  deriving DecidableEq, Repr

/-- Componentwise vector addition (`Vector3.add`). -/
def Vec3.add (a b : Vec3 α) : Vec3 α :=
  ⟨a.x + b.x, a.y + b.y, a.z + b.z⟩

/-- Componentwise vector subtraction (`Vector3.sub`). -/
def Vec3.sub (a b : Vec3 α) : Vec3 α :=
  ⟨a.x - b.x, a.y - b.y, a.z - b.z⟩

/-- Scalar multiplication (`Vector3.multiplyScalar`). -/
def Vec3.multiplyScalar (a : Vec3 α) (s : α) : Vec3 α :=
  ⟨a.x * s, a.y * s, a.z * s⟩

/-- An axis-aligned box given by its two corner points, as `THREE.Box3`. -/
structure Box3 (α : Type) where
  min : Vec3 α
  max : Vec3 α
  deriving DecidableEq, Repr

/-- Translation of `THREE.Box3.intersectsBox`: the receiver and the argument
intersect unless they are strictly separated along some axis (the three.js
source returns `false` exactly when one of the six strict comparisons holds,
so touching boxes count as intersecting). -/
def Box3.intersectsBox (a b : Box3 α) : Bool :=
  if b.max.x < a.min.x ∨ b.min.x > a.max.x ∨
     b.max.y < a.min.y ∨ b.min.y > a.max.y ∨
     b.max.z < a.min.z ∨ b.min.z > a.max.z then false else true

/-- The player bounding box built inside `checkWallCollisions`
(ThreeMaze.js lines 379-390): half-width and half-depth `0.3`, extending the
full player height below the given position. -/
def playerBBox (height : α) (position : Vec3 α) : Box3 α :=
  ⟨⟨position.x - 3/10, position.y - height, position.z - 3/10⟩,
   ⟨position.x + 3/10, position.y, position.z + 3/10⟩⟩

/-- `checkWallCollisions` (ThreeMaze.js lines 378-399): build the player box
at `position` and scan the wall list, reporting whether any wall box
intersects it. -/
def checkWallCollisions (height : α) (walls : List (Box3 α)) (position : Vec3 α) : Bool :=
  walls.any fun wall => (playerBBox height position).intersectsBox wall

/-- The position update of the animation loop (ThreeMaze.js lines 438-444):
the candidate position is `currentPosition + velocity`; it is committed only
when `checkWallCollisions` reports no intersection, otherwise the current
position is kept. -/
def resolve (height : α) (walls : List (Box3 α)) (currentPosition velocity : Vec3 α) : Vec3 α :=
  if checkWallCollisions height walls (currentPosition.add velocity) then
    currentPosition
  else
    currentPosition.add velocity

/-- The six world-space wall AABBs that `createMaze` (ThreeMaze.js lines
262-283) stores in `wall.userData.bbox` via `Box3.setFromObject`: each wall is
a `BoxGeometry(10, 3, 0.5)` centred at height `1.5`; a quarter turn about the
vertical axis exactly swaps the `x` and `z` half-extents (`5` and `0.25`).
In source order: `[0,1.5,-5]` yaw 0, `[5,1.5,0]` yaw π/2, `[-5,1.5,0]` yaw π/2,
`[0,1.5,5]` yaw 0, `[5,1.5,10]` yaw π/2, `[10,1.5,5]` yaw 0. -/
def mazeWalls : List (Box3 α) :=
  [⟨⟨-5, 0, -21/4⟩, ⟨5, 3, -19/4⟩⟩,
   ⟨⟨19/4, 0, -5⟩, ⟨21/4, 3, 5⟩⟩,
   ⟨⟨-21/4, 0, -5⟩, ⟨-19/4, 3, 5⟩⟩,
   ⟨⟨-5, 0, 19/4⟩, ⟨5, 3, 21/4⟩⟩,
   ⟨⟨19/4, 0, 5⟩, ⟨21/4, 3, 15⟩⟩,
   ⟨⟨5, 0, 19/4⟩, ⟨15, 3, 21/4⟩⟩]

/-- The spec's wording of AABB intersection: two AABBs intersect iff they
overlap on all three axes simultaneously, with closed intervals (touching
edges count as intersecting). -/
def specIntersects (a b : Box3 α) : Prop :=
  a.min.x ≤ b.max.x ∧ b.min.x ≤ a.max.x ∧
  a.min.y ≤ b.max.y ∧ b.min.y ≤ a.max.y ∧
  a.min.z ≤ b.max.z ∧ b.min.z ≤ a.max.z

instance (a b : Box3 α) : Decidable (specIntersects a b) := by
  unfold specIntersects
  infer_instance

/-- The spec's wording of the candidate player AABB: `min = position −
(0.3, height, 0.3)` and `max = position + (0.3, 0, 0.3)`. -/
def specPlayerBox (height : α) (position : Vec3 α) : Box3 α :=
  ⟨position.sub ⟨3/10, height, 3/10⟩, position.add ⟨3/10, 0, 3/10⟩⟩

/-! ## Basic lemmas about the collision test -/

/-- The three.js separated-axis test agrees with the spec's closed-interval
overlap description. -/
theorem intersectsBox_eq_true_iff (a b : Box3 α) :
    a.intersectsBox b = true ↔ specIntersects a b := by
  unfold Box3.intersectsBox specIntersects
  split <;> rename_i h
  · simp only [Bool.false_eq_true, false_iff]
    rintro ⟨h1, h2, h3, h4, h5, h6⟩
    rcases h with h | h | h | h | h | h
    · exact absurd h1 (not_le.mpr h)
    · exact absurd h2 (not_le.mpr h)
    · exact absurd h3 (not_le.mpr h)
    · exact absurd h4 (not_le.mpr h)
    · exact absurd h5 (not_le.mpr h)
    · exact absurd h6 (not_le.mpr h)
  · push_neg at h
    obtain ⟨h1, h2, h3, h4, h5, h6⟩ := h
    exact iff_of_true rfl ⟨h1, h2, h3, h4, h5, h6⟩

/-- `checkWallCollisions` reports a hit exactly when some wall of the list
intersects the player box in the spec's sense. -/
theorem checkWallCollisions_eq_true_iff (height : α) (walls : List (Box3 α)) (position : Vec3 α) :
    checkWallCollisions height walls position = true ↔
      ∃ w ∈ walls, specIntersects (playerBBox height position) w := by
  simp only [checkWallCollisions, List.any_eq_true, intersectsBox_eq_true_iff]

/-- The code's player box and the spec's componentwise description coincide. -/
theorem playerBBox_eq_specPlayerBox (height : α) (position : Vec3 α) :
    playerBBox height position = specPlayerBox height position := by
  simp [playerBBox, specPlayerBox, Vec3.sub, Vec3.add]

/-! ## Claims about the collision resolver -/

/-- C1: The collision resolver is all-or-nothing: for every current position,
proposed velocity and wall list, it builds the candidate player AABB at
`currentPosition + proposedVelocity` (min = position − (0.3, height, 0.3),
max = position + (0.3, 0, 0.3)), tests it against every wall AABB with a
closed-interval overlap test on all three axes, returns the current position
unchanged if any wall intersects, and the candidate position otherwise. -/
theorem c1_resolve_all_or_nothing (height : α) (walls : List (Box3 α))
    (currentPosition velocity : Vec3 α) :
    resolve height walls currentPosition velocity =
      if ∃ w ∈ walls, specIntersects (specPlayerBox height (currentPosition.add velocity)) w then
        currentPosition
      else
        currentPosition.add velocity := by
  unfold resolve
  rw [← playerBBox_eq_specPlayerBox]
  by_cases h : checkWallCollisions height walls (currentPosition.add velocity) = true
  · rw [if_pos h, if_pos ((checkWallCollisions_eq_true_iff _ _ _).mp h)]
  · rw [if_neg h, if_neg fun hx => h ((checkWallCollisions_eq_true_iff _ _ _).mpr hx)]

/-- C2 counterexample: with no precondition on the current position the
no-intersection postcondition fails: a player already standing inside the
`[0, 1.5, -5]` wall with zero proposed velocity is returned unchanged, and the
returned position's player AABB intersects a wall of the registry. -/
theorem c2_counterexample :
    resolve (9/5 : ℚ) mazeWalls ⟨0, 9/5, -5⟩ ⟨0, 0, 0⟩ = ⟨0, 9/5, -5⟩ ∧
    ∃ w ∈ (mazeWalls : List (Box3 ℚ)),
      specIntersects
        (playerBBox (9/5 : ℚ) (resolve (9/5 : ℚ) mazeWalls ⟨0, 9/5, -5⟩ ⟨0, 0, 0⟩)) w := by
  constructor
  · norm_num [resolve, checkWallCollisions, mazeWalls, playerBBox, Vec3.add, Box3.intersectsBox]
  · norm_num [resolve, checkWallCollisions, mazeWalls, playerBBox, Vec3.add, Box3.intersectsBox,
      specIntersects]

/-- C2 (amended): provided the current position's own player AABB intersects
no wall of the registry, the position returned by the resolver has a player
AABB intersecting no wall of the registry. -/
theorem c2_no_intersection_postcondition (height : α) (walls : List (Box3 α))
    (P velocity : Vec3 α)
    (h : ∀ w ∈ walls, ¬ specIntersects (playerBBox height P) w) :
    ∀ w ∈ walls, ¬ specIntersects (playerBBox height (resolve height walls P velocity)) w := by
  unfold resolve
  by_cases hc : checkWallCollisions height walls (P.add velocity) = true
  · rw [if_pos hc]
    exact h
  · rw [if_neg hc]
    intro w hw hi
    exact hc ((checkWallCollisions_eq_true_iff _ _ _).mpr ⟨w, hw, hi⟩)

/-- Witness for the amended C2 at a concrete input: the player at `(0,1.8,1)`
touches no wall, and after the accepted move to `z = 0` still touches none. -/
theorem c2_no_intersection_postcondition_witness :
    (∀ w ∈ (mazeWalls : List (Box3 ℚ)),
        ¬ specIntersects (playerBBox (9/5 : ℚ) ⟨0, 9/5, 1⟩) w) ∧
    ∀ w ∈ (mazeWalls : List (Box3 ℚ)),
      ¬ specIntersects
        (playerBBox (9/5 : ℚ) (resolve (9/5 : ℚ) mazeWalls ⟨0, 9/5, 1⟩ ⟨0, 0, -1⟩)) w := by
  have pre : ∀ w ∈ (mazeWalls : List (Box3 ℚ)),
      ¬ specIntersects (playerBBox (9/5 : ℚ) ⟨0, 9/5, 1⟩) w := by
    norm_num [mazeWalls, playerBBox, specIntersects]
  exact ⟨pre, c2_no_intersection_postcondition _ _ _ _ pre⟩

/-- C4: Scenario A on the reference maze: the first wall's AABB spans
`x ∈ [-5,5]`, `y ∈ [0,3]`, `z ∈ [-5.25,-4.75]`; from `(0, 1.8, 1)` the
proposed move to `z = -5` is rejected (position unchanged) and the proposed
move to `z = 0` is accepted (candidate returned). -/
theorem c4_scenario_a :
    (mazeWalls : List (Box3 ℚ)).head? = some ⟨⟨-5, 0, -21/4⟩, ⟨5, 3, -19/4⟩⟩ ∧
    resolve (9/5 : ℚ) mazeWalls ⟨0, 9/5, 1⟩ ⟨0, 0, -6⟩ = ⟨0, 9/5, 1⟩ ∧
    resolve (9/5 : ℚ) mazeWalls ⟨0, 9/5, 1⟩ ⟨0, 0, -1⟩ = ⟨0, 9/5, 0⟩ := by
  refine ⟨rfl, ?_, ?_⟩ <;>
    norm_num [resolve, checkWallCollisions, mazeWalls, playerBBox, Vec3.add, Box3.intersectsBox]

/-- C8: Zero-velocity idempotence: with a zero proposed velocity the resolver
returns the current position unchanged, for every position and wall set
(whether or not that position currently intersects a wall). -/
theorem c8_zero_velocity_idempotent (height : α) (walls : List (Box3 α)) (P : Vec3 α) :
    resolve height walls P ⟨0, 0, 0⟩ = P := by
  have hadd : P.add ⟨0, 0, 0⟩ = P := by simp [Vec3.add]
  unfold resolve
  rw [hadd]
  exact ite_self P

/-! ## The motion integrator of the animation loop -/

/-- The four movement-intent flags of `moveStateRef` (ThreeMaze.js lines
18-23), set and cleared by `onKeyDown`/`onKeyUp`. -/
structure MoveState where
  forward : Bool
  backward : Bool
  left : Bool
  right : Bool

/-- `Vector3.applyQuaternion` with the camera's quaternion. three.js derives
that quaternion from `camera.rotation`, which `onMouseMove` sets to the Euler
angles `(x, y, z) = (pitch, yaw, 0)` in the default order XYZ (ThreeMaze.js
lines 205-207), so the applied rotation is `Rx(pitch) · Ry(yaw)`. -/
noncomputable def Vec3.applyCameraRotation (yaw pitch : ℝ) (v : Vec3 ℝ) : Vec3 ℝ :=
  ⟨v.x * Real.cos yaw + v.z * Real.sin yaw,
   v.y * Real.cos pitch - (-v.x * Real.sin yaw + v.z * Real.cos yaw) * Real.sin pitch,
   v.y * Real.sin pitch + (-v.x * Real.sin yaw + v.z * Real.cos yaw) * Real.cos pitch⟩

/-- `Vector3.length`: the Euclidean norm. -/
noncomputable def Vec3.length (v : Vec3 ℝ) : ℝ :=
  Real.sqrt (v.x * v.x + v.y * v.y + v.z * v.z)

/-- `Vector3.normalize`, which divides by `length() || 1`: the zero vector is
left unchanged, every other vector is divided by its length. -/
noncomputable def Vec3.normalize (v : Vec3 ℝ) : Vec3 ℝ :=
  if v.length = 0 then v else ⟨v.x / v.length, v.y / v.length, v.z / v.length⟩

/-- The forward direction of the animation loop (ThreeMaze.js lines 409-412):
`(0, 0, -1)` rotated by the camera quaternion, then flattened to the
horizontal plane (`direction.y = 0`) and normalized. -/
noncomputable def computeDirection (yaw pitch : ℝ) : Vec3 ℝ :=
  Vec3.normalize
    ⟨(Vec3.applyCameraRotation yaw pitch ⟨0, 0, -1⟩).x, 0,
     (Vec3.applyCameraRotation yaw pitch ⟨0, 0, -1⟩).z⟩

/-- The right vector of the animation loop (ThreeMaze.js lines 415-417):
`(1, 0, 0)` rotated by the camera quaternion and normalized — its Y component
is not zeroed. -/
noncomputable def computeRightVector (yaw pitch : ℝ) : Vec3 ℝ :=
  Vec3.normalize (Vec3.applyCameraRotation yaw pitch ⟨1, 0, 0⟩)

/-- One guarded accumulation step of the velocity (the pattern
`if (moveStateRef.current.flag) velocity.add(...)`). -/
def Vec3.addIf (v : Vec3 α) (b : Bool) (w : Vec3 α) : Vec3 α :=
  if b then v.add w else v

/-- The velocity computed by the animation loop (ThreeMaze.js lines 419-436):
starting from zero, add `±(speed*delta)` times the forward direction for the
forward/backward flags and `±(speed*delta)` times the right vector for the
right/left flags. -/
noncomputable def computeVelocity (ms : MoveState) (yaw pitch speed delta : ℝ) : Vec3 ℝ :=
  ((((⟨0, 0, 0⟩ : Vec3 ℝ).addIf ms.forward
      ((computeDirection yaw pitch).multiplyScalar (speed * delta))).addIf ms.backward
      ((computeDirection yaw pitch).multiplyScalar (-(speed * delta)))).addIf ms.right
      ((computeRightVector yaw pitch).multiplyScalar (speed * delta))).addIf ms.left
      ((computeRightVector yaw pitch).multiplyScalar (-(speed * delta)))

/-- The position update of one pass of `animate` (ThreeMaze.js lines 402-448):
the whole velocity computation and collision-checked position update run only
inside `if (pointerRef.current.isLocked)`; otherwise the camera position is
left untouched. -/
noncomputable def animateStep (isLocked : Bool) (ms : MoveState) (yaw pitch : ℝ)
    (height speed delta : ℝ) (walls : List (Box3 ℝ)) (position : Vec3 ℝ) : Vec3 ℝ :=
  if isLocked then
    resolve height walls position (computeVelocity ms yaw pitch speed delta)
  else
    position

/-! ## The mouse-look handler -/

/-- The camera orientation state of `rotationRef` (ThreeMaze.js lines 24-27):
horizontal and vertical look angles in radians. -/
structure Rotation where
  horizontal : ℝ
  vertical : ℝ

/-- A relative pointer-move event (`movementX`, `movementY`). -/
structure LookEvent where
  movementX : ℝ
  movementY : ℝ

/-- `onMouseMove` (ThreeMaze.js lines 182-209): while pointer lock is engaged,
subtract `movement * 0.002` from each angle and clamp the vertical angle to
`[-π/2, π/2]`; while disengaged the event leaves the rotation unchanged. -/
noncomputable def onMouseMove (isLocked : Bool) (e : LookEvent) (rot : Rotation) : Rotation :=
  if isLocked then
    ⟨rot.horizontal - e.movementX * 0.002,
     max (-(π/2)) (min (π/2) (rot.vertical - e.movementY * 0.002))⟩
  else
    rot

/-- Delivering a stream of pointer-move events in order, each tagged with the
engagement-lock state at its delivery time. -/
noncomputable def processLook (events : List (Bool × LookEvent)) (rot : Rotation) : Rotation :=
  match events with
  | [] => rot
  | e :: rest => processLook rest (onMouseMove e.1 e.2 rot)

/-! ## Lemmas about the motion integrator -/

/-- The forward direction always has a zero Y component: it is flattened
before normalization, and normalization preserves a zero component. -/
theorem computeDirection_y (yaw pitch : ℝ) : (computeDirection yaw pitch).y = 0 := by
  unfold computeDirection Vec3.normalize
  split
  · rfl
  · exact zero_div _

/-- The rotated right vector, componentwise: `Rx(pitch)·Ry(yaw)·(1,0,0)`. -/
theorem applyCameraRotation_right (yaw pitch : ℝ) :
    Vec3.applyCameraRotation yaw pitch ⟨1, 0, 0⟩ =
      ⟨Real.cos yaw, Real.sin yaw * Real.sin pitch, -(Real.sin yaw * Real.cos pitch)⟩ := by
  unfold Vec3.applyCameraRotation
  simp only [Vec3.mk.injEq]
  refine ⟨by ring, by ring, by ring⟩

/-- The rotated right vector is already a unit vector. -/
theorem rightVector_length (yaw pitch : ℝ) :
    (Vec3.applyCameraRotation yaw pitch ⟨1, 0, 0⟩).length = 1 := by
  rw [applyCameraRotation_right]
  unfold Vec3.length
  have hy := Real.sin_sq_add_cos_sq yaw
  have hp := Real.sin_sq_add_cos_sq pitch
  rw [show Real.cos yaw * Real.cos yaw +
        Real.sin yaw * Real.sin pitch * (Real.sin yaw * Real.sin pitch) +
        -(Real.sin yaw * Real.cos pitch) * -(Real.sin yaw * Real.cos pitch) = 1 by
      linear_combination (Real.sin yaw)^2 * hp + hy]
  exact Real.sqrt_one

/-- The right vector used by the integrator, in closed form: normalization
leaves the (already unit) rotated vector unchanged. -/
theorem computeRightVector_eq (yaw pitch : ℝ) :
    computeRightVector yaw pitch =
      ⟨Real.cos yaw, Real.sin yaw * Real.sin pitch, -(Real.sin yaw * Real.cos pitch)⟩ := by
  unfold computeRightVector Vec3.normalize
  rw [rightVector_length, if_neg one_ne_zero, applyCameraRotation_right]
  simp [div_one]

/-- At zero pitch the forward direction is the yaw-rotated `-Z` axis. -/
theorem computeDirection_pitch_zero (yaw : ℝ) :
    computeDirection yaw 0 = ⟨-Real.sin yaw, 0, -Real.cos yaw⟩ := by
  have happly : Vec3.applyCameraRotation yaw 0 ⟨0, 0, -1⟩ = ⟨-Real.sin yaw, 0, -Real.cos yaw⟩ := by
    unfold Vec3.applyCameraRotation
    simp only [Real.sin_zero, Real.cos_zero, Vec3.mk.injEq]
    refine ⟨by ring, by ring, by ring⟩
  have hlen : (⟨-Real.sin yaw, 0, -Real.cos yaw⟩ : Vec3 ℝ).length = 1 := by
    unfold Vec3.length
    have hy := Real.sin_sq_add_cos_sq yaw
    rw [show -Real.sin yaw * -Real.sin yaw + 0 * 0 + -Real.cos yaw * -Real.cos yaw = 1 by
        linear_combination hy]
    exact Real.sqrt_one
  unfold computeDirection
  rw [happly]
  show Vec3.normalize ⟨-Real.sin yaw, 0, -Real.cos yaw⟩ = _
  unfold Vec3.normalize
  rw [hlen, if_neg one_ne_zero]
  simp [div_one]

/-- At zero pitch the right vector is the yaw-rotated `+X` axis. -/
theorem computeRightVector_pitch_zero (yaw : ℝ) :
    computeRightVector yaw 0 = ⟨Real.cos yaw, 0, -Real.sin yaw⟩ := by
  rw [computeRightVector_eq]
  simp

/-- Normalizing the zero vector leaves it unchanged (three.js divides by
`length() || 1`). -/
theorem normalize_zero_vec : Vec3.normalize ⟨0, 0, 0⟩ = (⟨0, 0, 0⟩ : Vec3 ℝ) := by
  unfold Vec3.normalize Vec3.length
  norm_num

/-- With neither strafe flag set, the computed velocity is horizontal. -/
theorem computeVelocity_y_no_strafe (f b : Bool) (yaw pitch speed delta : ℝ) :
    (computeVelocity ⟨f, b, false, false⟩ yaw pitch speed delta).y = 0 := by
  have hd := computeDirection_y yaw pitch
  unfold computeVelocity Vec3.addIf
  cases f <;> cases b <;> simp [Vec3.add, Vec3.multiplyScalar, hd]

/-! ## Claims about the motion integrator and look handler -/

/-- C3 counterexample: the right vector is not flattened to the horizontal
plane: at yaw = π/2 and pitch = π/2 its Y component is 1, not 0 (strafing
points straight up there). -/
theorem c3_counterexample : (computeRightVector (π/2) (π/2)).y ≠ 0 := by
  rw [computeRightVector_eq]
  show Real.sin (π/2) * Real.sin (π/2) ≠ 0
  rw [Real.sin_pi_div_two]
  norm_num

/-- C3 (amended): only the forward direction is flattened to the horizontal
plane and renormalized (its Y component is always 0); the right vector is
rotated and normalized without flattening, its Y component being
`sin yaw * sin pitch`, so the vertical look angle can affect movement. -/
theorem c3_flattening_amended (yaw pitch : ℝ) :
    (computeDirection yaw pitch).y = 0 ∧
    (computeRightVector yaw pitch).y = Real.sin yaw * Real.sin pitch :=
  ⟨computeDirection_y yaw pitch, by rw [computeRightVector_eq]⟩

/-- C5 counterexample: the `speed*dt*sqrt 2` law for forward+right does not
hold in general: looking straight up (yaw 0, pitch π/2) the flattened forward
direction is the zero vector, and one tick at speed 5, dt 1 has displacement
magnitude 5, not `5*sqrt 2`. -/
theorem c5_counterexample :
    (computeVelocity ⟨true, false, false, true⟩ 0 (π/2) 5 1).length = 5 ∧
    (5 : ℝ) ≠ 5 * Real.sqrt 2 := by
  constructor
  · have hd : computeDirection 0 (π/2) = ⟨0, 0, 0⟩ := by
      have happly : Vec3.applyCameraRotation 0 (π/2) ⟨0, 0, -1⟩ = ⟨0, 1, 0⟩ := by
        unfold Vec3.applyCameraRotation
        simp [Real.sin_pi_div_two, Real.cos_pi_div_two]
      unfold computeDirection
      rw [happly]
      exact normalize_zero_vec
    have hr : computeRightVector 0 (π/2) = ⟨1, 0, 0⟩ := by
      rw [computeRightVector_eq]
      simp
    have hv : computeVelocity ⟨true, false, false, true⟩ 0 (π/2) 5 1 = ⟨5, 0, 0⟩ := by
      unfold computeVelocity Vec3.addIf
      rw [hd, hr]
      simp only [eq_self_iff_true, Bool.false_eq_true, if_true, if_false,
        Vec3.add, Vec3.multiplyScalar, Vec3.mk.injEq]
      norm_num
    rw [hv]
    unfold Vec3.length
    rw [show (5 : ℝ) * 5 + 0 * 0 + 0 * 0 = 5 ^ 2 by norm_num, Real.sqrt_sq (by norm_num)]
  · have h2 : (1 : ℝ) < Real.sqrt 2 := by
      have := Real.sqrt_lt_sqrt (by norm_num : (0:ℝ) ≤ 1) (by norm_num : (1:ℝ) < 2)
      rwa [Real.sqrt_one] at this
    nlinarith

/-- C5 (amended): at zero pitch, pressing forward and right together for one
tick at speed 5 and dt 1 yields displacement magnitude exactly `5*sqrt 2` for
every yaw (diagonal movement is not normalized); the ratio is specific to
orientations where the flattened forward stays orthogonal to the right
vector. -/
theorem c5_diagonal_amended (yaw : ℝ) :
    (computeVelocity ⟨true, false, false, true⟩ yaw 0 5 1).length = 5 * Real.sqrt 2 := by
  have hv : computeVelocity ⟨true, false, false, true⟩ yaw 0 5 1 =
      ⟨5 * Real.cos yaw - 5 * Real.sin yaw, 0, -(5 * Real.cos yaw) - 5 * Real.sin yaw⟩ := by
    unfold computeVelocity Vec3.addIf
    rw [computeDirection_pitch_zero, computeRightVector_pitch_zero]
    simp only [eq_self_iff_true, Bool.false_eq_true, if_true, if_false,
      Vec3.add, Vec3.multiplyScalar, Vec3.mk.injEq]
    exact ⟨by ring, by ring, by ring⟩
  rw [hv]
  unfold Vec3.length
  have hy := Real.sin_sq_add_cos_sq yaw
  rw [show (5 * Real.cos yaw - 5 * Real.sin yaw) * (5 * Real.cos yaw - 5 * Real.sin yaw) +
        0 * 0 +
        (-(5 * Real.cos yaw) - 5 * Real.sin yaw) * (-(5 * Real.cos yaw) - 5 * Real.sin yaw) =
        50 by linear_combination (50 : ℝ) * hy]
  rw [show (50 : ℝ) = 5 ^ 2 * 2 by norm_num, Real.sqrt_mul (by positivity),
    Real.sqrt_sq (by norm_num)]

/-- One look event keeps the vertical angle inside `[-π/2, π/2]`: when the
lock is engaged the clamp enforces it outright, and when disengaged the angle
is unchanged. -/
theorem onMouseMove_vertical_mem (isLocked : Bool) (e : LookEvent) (rot : Rotation)
    (h : -(π/2) ≤ rot.vertical ∧ rot.vertical ≤ π/2) :
    -(π/2) ≤ (onMouseMove isLocked e rot).vertical ∧
      (onMouseMove isLocked e rot).vertical ≤ π/2 := by
  unfold onMouseMove
  cases isLocked
  · simpa using h
  · simp only [if_true, eq_self_iff_true]
    constructor
    · exact le_max_left _ _
    · refine max_le ?_ (min_le_left _ _)
      have := Real.pi_pos
      linarith

/-- C6: After every look event the vertical look angle remains in
`[-π/2, π/2]`: any sequence of events (look-down, look-up, or mixed, with any
lock states) delivered from an in-range rotation leaves the vertical angle in
range, the clamp being applied after each update. -/
theorem c6_pitch_clamp (events : List (Bool × LookEvent)) (rot : Rotation)
    (h : -(π/2) ≤ rot.vertical ∧ rot.vertical ≤ π/2) :
    -(π/2) ≤ (processLook events rot).vertical ∧ (processLook events rot).vertical ≤ π/2 := by
  induction events generalizing rot with
  | nil => exact h
  | cons e rest ih =>
    exact ih _ (onMouseMove_vertical_mem e.1 e.2 rot h)

/-- Witness for C6 at a concrete input: from the initial rotation `(0, 0)` a
single engaged look-down event of 1000 device units keeps the vertical angle
within the clamp range. -/
theorem c6_pitch_clamp_witness :
    (-(π/2) ≤ (⟨0, 0⟩ : Rotation).vertical ∧ (⟨0, 0⟩ : Rotation).vertical ≤ π/2) ∧
    (-(π/2) ≤ (processLook [(true, ⟨0, 1000⟩)] ⟨0, 0⟩).vertical ∧
      (processLook [(true, ⟨0, 1000⟩)] ⟨0, 0⟩).vertical ≤ π/2) := by
  have h0 : -(π/2) ≤ ((⟨0, 0⟩ : Rotation)).vertical ∧ ((⟨0, 0⟩ : Rotation)).vertical ≤ π/2 := by
    have hp : (0:ℝ) ≤ π/2 := by positivity
    exact ⟨by simpa using hp, hp⟩
  exact ⟨h0, c6_pitch_clamp [(true, ⟨0, 1000⟩)] ⟨0, 0⟩ h0⟩

/-- C7: While the engagement lock is disengaged, the look event
`(dx, dy) = (100, 50)` leaves the orientation unchanged; while engaged, the
same event changes the horizontal angle by exactly `-100 * 0.002 = -0.2`
radians. -/
theorem c7_look_lock_gating (rot : Rotation) :
    onMouseMove false ⟨100, 50⟩ rot = rot ∧
    (onMouseMove true ⟨100, 50⟩ rot).horizontal = rot.horizontal - 1/5 := by
  constructor
  · rfl
  · show rot.horizontal - 100 * 0.002 = rot.horizontal - 1/5
    norm_num

/-- C9: While the engagement lock is disengaged, one pass of the animation
loop leaves the player position entirely unchanged, whatever the four intent
flags, the orientation, the timing, or the walls: the whole velocity and
collision update is gated on the lock. -/
theorem c9_unlocked_frame_freezes_position (ms : MoveState) (yaw pitch height speed delta : ℝ)
    (walls : List (Box3 ℝ)) (position : Vec3 ℝ) :
    animateStep false ms yaw pitch height speed delta walls position = position := rfl

/-- C10: If the left and right intent flags are both false, one frame update
preserves the Y coordinate of the position for every yaw and pitch: the
forward direction is flattened before normalization, so forward/backward-only
movement is purely horizontal under both the accept and the reject branch of
the resolver. -/
theorem c10_forward_backward_preserves_y (isLocked f b : Bool)
    (yaw pitch height speed delta : ℝ) (walls : List (Box3 ℝ)) (position : Vec3 ℝ) :
    (animateStep isLocked ⟨f, b, false, false⟩ yaw pitch height speed delta walls position).y =
      position.y := by
  cases isLocked
  · rfl
  · unfold animateStep resolve
    split
    · split
      · rfl
      · simp [Vec3.add, computeVelocity_y_no_strafe]
    · rfl
